import Mathlib

/-!
Shallow embedding of the robot communication protocol engine of
`root-robot-python-web-app` (files `app/robot/packet.py`,
`app/robot/types.py`, `app/robot/robot.py`), together with proofs of the
testable properties stated in the repository specification.

Bytes are modelled as `Nat` (with explicit `&&& 0xFF` masks exactly where
the Python code masks), byte strings as `List Nat`, Python `None` as
`Option`, and Python `assert` failures / `TypeError`s as error values of an
explicit `Except`-style result.
-/

set_option maxRecDepth 100000
set_option linter.unusedVariables false

namespace RootRobot

/-! ## Packet (`app/robot/packet.py`) -/

/-- `Packet.PACKET_LEN` -/
def PACKET_LEN : Nat := 20

/-- `Packet.PAYLOAD_LEN` -/
def PAYLOAD_LEN : Nat := 16

/-- The packet record: `dev`, `cmd`, `inc`, the (already padded) 16-byte
`payload`, and `_crc` (the stored CRC, `None` for a locally built packet). -/
structure Packet where
  dev : Nat
  cmd : Nat
  inc : Nat
  payload : List Nat
  crcStored : Option Nat
  deriving DecidableEq, Repr

/-- `Packet.__init__`: asserts `len(payload) <= PAYLOAD_LEN` (modelled as
`none` on assertion failure) and pads the payload with trailing zero bytes
to exactly 16 bytes. -/
def Packet.init (dev cmd inc : Nat) (payload : List Nat)
    (crc : Option Nat) : Option Packet :=
  if payload.length ≤ PAYLOAD_LEN then
    some ⟨dev, cmd, inc, payload ++ List.replicate (PAYLOAD_LEN - payload.length) 0, crc⟩
  else
    none

/-- `Packet.packet()`: the 19 header+payload bytes, without the CRC. -/
def Packet.packet (p : Packet) : List Nat :=
  [p.dev, p.cmd, p.inc] ++ p.payload

/-- One iteration of the inner loop of `Packet.calc_crc`:
`b = crc & 0x80; if <input bit>: b ^= 0x80; crc <<= 1; if b: crc ^= 0x07`. -/
def crcBitStep (crc : Nat) (bit : Bool) : Nat :=
  let b := crc &&& 0x80
  let b := if bit then b ^^^ 0x80 else b
  let crc := crc <<< 1
  if b ≠ 0 then crc ^^^ 0x07 else crc

/-- The input bit `c & (0x80 >> i)` of the inner loop of `calc_crc`. -/
def byteBit (c i : Nat) : Bool :=
  c &&& (0x80 >>> i) ≠ 0

/-- One iteration of the outer loop of `Packet.calc_crc`: the eight bit
steps of one byte followed by `crc &= 0xFF`. -/
def crcByteStep (crc c : Nat) : Nat :=
  ((List.range 8).foldl (fun acc i => crcBitStep acc (byteBit c i)) crc) &&& 0xFF

/-- `Packet.calc_crc` as a function of the byte list it iterates over
(`crc = 0x00` initially). -/
def calcCrcBytes (bytes : List Nat) : Nat :=
  bytes.foldl crcByteStep 0x00

/-- `Packet.calc_crc`: the CRC-8 of the 19 header+payload bytes. -/
def Packet.calc_crc (p : Packet) : Nat :=
  calcCrcBytes p.packet

/-- `Packet.check_crc`: `False if self._crc is None else self._crc == self.calc_crc()`. -/
def Packet.check_crc (p : Packet) : Bool :=
  match p.crcStored with
  | none => false
  | some c => c == p.calc_crc

/-- `Packet.from_bytes`: asserts the raw length is exactly 20 (modelled as
`none`), then splits into `raw[0], raw[1], raw[2], raw[3:19], raw[19]`. -/
def Packet.from_bytes (raw : List Nat) : Option Packet :=
  if raw.length = PACKET_LEN then
    Packet.init (raw.getD 0 0) (raw.getD 1 0) (raw.getD 2 0)
      ((raw.drop 3).take 16) (some (raw.getD 19 0))
  else
    none

/-- `Packet.to_bytes`: the 19 body bytes followed by the computed CRC. -/
def Packet.to_bytes (p : Packet) : List Nat :=
  p.packet ++ [p.calc_crc]

example : calcCrcBytes (List.replicate 19 0) = 0 := by decide

example : Packet.from_bytes (List.replicate 19 0 ++ [0]) =
    some ⟨0, 0, 0, List.replicate 16 0, some 0⟩ := by decide

/-! ## Linearity of the CRC over GF(2)

The CRC register update is linear in (register, input bit) over bitwise
xor; this is what makes single-bit error detection provable for all
19-byte bodies at once. -/

theorem shiftLeft_xor_distrib (x y n : Nat) :
    (x ^^^ y) <<< n = (x <<< n) ^^^ (y <<< n) := by
  apply Nat.eq_of_testBit_eq
  intro i
  simp [Nat.testBit_shiftLeft, Nat.testBit_xor, Bool.and_xor_distrib_left]

theorem and_xor_distrib_right (x y m : Nat) :
    (x ^^^ y) &&& m = (x &&& m) ^^^ (y &&& m) := by
  apply Nat.eq_of_testBit_eq
  intro i
  simp [Nat.testBit_and, Nat.testBit_xor, Bool.and_xor_distrib_right]

theorem xor_rearrange (a b c d : Nat) :
    (a ^^^ b) ^^^ (c ^^^ d) = (a ^^^ c) ^^^ (b ^^^ d) := by
  apply Nat.eq_of_testBit_eq
  intro i
  simp [Nat.testBit_xor]
  rcases a.testBit i <;> rcases b.testBit i <;> rcases c.testBit i <;>
    rcases d.testBit i <;> rfl

/-- Closed form of the bit step: shift, xor the polynomial `0x07` exactly
when the top register bit differs from the input bit. -/
theorem crcBitStep_eq (x : Nat) (d : Bool) :
    crcBitStep x d = (x <<< 1) ^^^ (if xor (x.testBit 7) d then 7 else 0) := by
  have h80 : (0x80 : Nat) = 2 ^ 7 := by norm_num
  unfold crcBitStep
  rw [h80, Nat.and_two_pow]
  rcases h : x.testBit 7 <;> rcases d <;> simp [h, Nat.xor_zero]

theorem ite7_xor (p q : Bool) :
    (if xor p q then (7 : Nat) else 0) = (if p then 7 else 0) ^^^ (if q then 7 else 0) := by
  rcases p <;> rcases q <;> rfl

theorem crcBitStep_linear (x y : Nat) (d e : Bool) :
    crcBitStep (x ^^^ y) (xor d e) = crcBitStep x d ^^^ crcBitStep y e := by
  rw [crcBitStep_eq, crcBitStep_eq, crcBitStep_eq, Nat.testBit_xor,
    shiftLeft_xor_distrib]
  have hb : xor (xor (x.testBit 7) (y.testBit 7)) (xor d e)
      = xor (xor (x.testBit 7) d) (xor (y.testBit 7) e) := by
    rcases x.testBit 7 <;> rcases y.testBit 7 <;> rcases d <;> rcases e <;> rfl
  rw [hb, ite7_xor, xor_rearrange]

/-- For bit indices below 8, the inner-loop input bit is `testBit` at the
mirrored position. -/
theorem byteBit_eq_testBit (c i : Nat) (h : i < 8) :
    byteBit c i = c.testBit (7 - i) := by
  have hm : (0x80 : Nat) >>> i = 2 ^ (7 - i) := by
    have h80 : (0x80 : Nat) = 2 ^ 7 := by norm_num
    rw [h80, Nat.shiftRight_eq_div_pow]
    exact Nat.pow_div (by omega) (by norm_num)
  unfold byteBit
  rw [hm, Nat.and_two_pow]
  rcases hc : c.testBit (7 - i) <;> simp [hc]

theorem byteBit_xor (cx cy i : Nat) (h : i < 8) :
    byteBit (cx ^^^ cy) i = xor (byteBit cx i) (byteBit cy i) := by
  rw [byteBit_eq_testBit _ _ h, byteBit_eq_testBit _ _ h,
    byteBit_eq_testBit _ _ h, Nat.testBit_xor]

theorem foldBits_linear (l : List Nat) (hl : ∀ i ∈ l, i < 8) :
    ∀ (x y cx cy : Nat),
      l.foldl (fun acc i => crcBitStep acc (byteBit (cx ^^^ cy) i)) (x ^^^ y)
        = (l.foldl (fun acc i => crcBitStep acc (byteBit cx i)) x) ^^^
          (l.foldl (fun acc i => crcBitStep acc (byteBit cy i)) y) := by
  induction l with
  | nil => intro x y cx cy; rfl
  | cons a t ih =>
    intro x y cx cy
    have ha : a < 8 := hl a (List.mem_cons_self a t)
    have ht : ∀ i ∈ t, i < 8 := fun i hi => hl i (List.mem_cons_of_mem a hi)
    simp only [List.foldl_cons]
    rw [byteBit_xor _ _ _ ha, crcBitStep_linear]
    exact ih ht _ _ _ _

theorem crcByteStep_linear (x y cx cy : Nat) :
    crcByteStep (x ^^^ y) (cx ^^^ cy) = crcByteStep x cx ^^^ crcByteStep y cy := by
  unfold crcByteStep
  rw [foldBits_linear (List.range 8) (fun i hi => List.mem_range.mp hi),
    and_xor_distrib_right]

/-- Message-level linearity of the CRC fold: processing the pointwise xor
of two equal-length byte lists from xored registers xors the results. -/
theorem crcFold_linear :
    ∀ (m1 m2 : List Nat) (x y : Nat), m1.length = m2.length →
      (List.zipWith (· ^^^ ·) m1 m2).foldl crcByteStep (x ^^^ y)
        = (m1.foldl crcByteStep x) ^^^ (m2.foldl crcByteStep y) := by
  intro m1
  induction m1 with
  | nil =>
    intro m2 x y h
    have : m2 = [] := List.eq_nil_of_length_eq_zero h.symm
    subst this; rfl
  | cons a t ih =>
    intro m2 x y h
    rcases m2 with _ | ⟨b, t2⟩
    · simp at h
    · simp only [List.zipWith_cons_cons, List.foldl_cons]
      rw [crcByteStep_linear]
      exact ih t2 _ _ (by simpa using h)

theorem calcCrcBytes_xor (m1 m2 : List Nat) (h : m1.length = m2.length) :
    calcCrcBytes (List.zipWith (· ^^^ ·) m1 m2)
      = calcCrcBytes m1 ^^^ calcCrcBytes m2 := by
  unfold calcCrcBytes
  have h0 : (0x00 : Nat) = 0x00 ^^^ 0x00 := rfl
  rw [h0]
  exact crcFold_linear m1 m2 _ _ h

/-! ## Single-bit flips of a frame -/

/-- The 20-byte frame `body + [calc_crc(body)]` built from a 19-byte body. -/
def frameOf (body : List Nat) : List Nat :=
  body ++ [calcCrcBytes body]

/-- Flip bit `j` of byte `k` of a frame. -/
def flipBitFrame (frame : List Nat) (k j : Nat) : List Nat :=
  frame.set k ((frame.getD k 0) ^^^ (1 <<< j))

/-- The all-zero 19-byte message except value `m` at byte `k`. -/
def unitMsg (k m : Nat) : List Nat :=
  (List.replicate 19 0).set k m

theorem zipWith_xor_zero (l : List Nat) :
    List.zipWith (· ^^^ ·) l (List.replicate l.length 0) = l := by
  induction l with
  | nil => rfl
  | cons a t ih => simp [List.replicate_succ, ih]

theorem set_xor_eq_zipWith :
    ∀ (l : List Nat) (k m : Nat), k < l.length →
      l.set k ((l.getD k 0) ^^^ m)
        = List.zipWith (· ^^^ ·) l ((List.replicate l.length 0).set k m) := by
  intro l
  induction l with
  | nil => intro k m h; simp at h
  | cons a t ih =>
    intro k m h
    rcases k with _ | k
    · simp [List.replicate_succ, zipWith_xor_zero]
    · have hk : k < t.length := by simpa using h
      simp only [List.length_cons, List.replicate_succ, List.set_cons_succ,
        List.zipWith_cons_cons, Nat.xor_zero, List.getD_cons_succ]
      rw [← ih k m hk]

theorem xor_ne_of_ne_zero {a u : Nat} (hu : u ≠ 0) : a ^^^ u ≠ a := by
  intro h
  apply hu
  have h2 : a ^^^ (a ^^^ u) = a ^^^ a := congrArg (a ^^^ ·) h
  rwa [← Nat.xor_assoc, Nat.xor_self, Nat.zero_xor] at h2

/-- The CRC of every single-nonzero-bit 19-byte message is nonzero: CRC-8
with polynomial `0x07` detects all single-bit errors in the body. -/
theorem crcUnit_ne_zero :
    ∀ (k : Fin 19) (j : Fin 8), calcCrcBytes (unitMsg k.val (1 <<< j.val)) ≠ 0 := by
  decide

/-- Reassembling the three header bytes with the rest of a list of length
at least 3 gives back the list. -/
theorem headTriple (l : List Nat) (h : 3 ≤ l.length) :
    [l.getD 0 0, l.getD 1 0, l.getD 2 0] ++ l.drop 3 = l := by
  rcases l with _ | ⟨a, _ | ⟨b, _ | ⟨c, t⟩⟩⟩ <;> simp_all [List.getD]

/-- `from_bytes` on a 19-byte body followed by one extra byte: the packet's
fields are the split of the frame. -/
theorem from_bytes_frame (body : List Nat) (h : body.length = 19) (c : Nat) :
    Packet.from_bytes (body ++ [c])
      = some ⟨body.getD 0 0, body.getD 1 0, body.getD 2 0, body.drop 3, some c⟩ := by
  have hlen : (body ++ [c]).length = PACKET_LEN := by
    simp [h, PACKET_LEN]
  have hdrop : (body ++ [c]).drop 3 = body.drop 3 ++ [c] :=
    List.drop_append_of_le_length (by omega)
  have hdlen : (body.drop 3).length = 16 := by simp [h]
  have htake : (body.drop 3 ++ [c]).take 16 = body.drop 3 :=
    List.take_left' hdlen
  have hget19 : (body ++ [c]).getD 19 0 = c := by
    rw [List.getD_append_right _ _ _ _ (by omega), h]
    rfl
  unfold Packet.from_bytes
  rw [if_pos hlen, hdrop, htake, hget19,
    List.getD_append _ _ _ _ (by omega), List.getD_append _ _ _ _ (by omega),
    List.getD_append _ _ _ _ (by omega)]
  unfold Packet.init
  rw [if_pos (by rw [hdlen]; exact Nat.le_refl _)]
  simp [hdlen, PAYLOAD_LEN]

/-- The body of the packet rebuilt by `from_bytes_frame` is the original
19-byte body, hence its computed CRC is `calcCrcBytes body`. -/
theorem calc_crc_frame (body : List Nat) (h : body.length = 19) (c : Nat) :
    Packet.calc_crc ⟨body.getD 0 0, body.getD 1 0, body.getD 2 0, body.drop 3, some c⟩
      = calcCrcBytes body := by
  unfold Packet.calc_crc Packet.packet
  simp only
  rw [headTriple body (by omega)]

theorem check_crc_frame (body : List Nat) (h : body.length = 19) (c : Nat) :
    Packet.check_crc ⟨body.getD 0 0, body.getD 1 0, body.getD 2 0, body.drop 3, some c⟩
      = (c == calcCrcBytes body) := by
  unfold Packet.check_crc
  rw [calc_crc_frame body h c]

/-- Flipping bit `j < 8` of body byte `k < 19` changes the computed CRC. -/
theorem calcCrcBytes_flip_ne (body : List Nat) (h : body.length = 19)
    (k j : Nat) (hk : k < 19) (hj : j < 8) :
    calcCrcBytes (body.set k ((body.getD k 0) ^^^ (1 <<< j))) ≠ calcCrcBytes body := by
  have hkl : k < body.length := by omega
  rw [set_xor_eq_zipWith body k (1 <<< j) hkl, h]
  rw [calcCrcBytes_xor body _ (by simp [h])]
  exact xor_ne_of_ne_zero (crcUnit_ne_zero ⟨k, hk⟩ ⟨j, hj⟩)

/-- C1: for every 19-byte body the frame `body + [calc_crc(body)]`
deserializes into a packet whose `check_crc` is true, and flipping any
single bit of the 20-byte frame yields a frame whose `check_crc` is
false. -/
theorem C1_crc_roundtrip_single_bit (body : List Nat)
    (hlen : body.length = 19) (hbytes : ∀ b ∈ body, b < 256) :
    (∃ p, Packet.from_bytes (frameOf body) = some p ∧ p.check_crc = true) ∧
    (∀ k j, k < 20 → j < 8 → ∀ p',
      Packet.from_bytes (flipBitFrame (frameOf body) k j) = some p' →
      p'.check_crc = false) := by
  constructor
  · refine ⟨_, from_bytes_frame body hlen (calcCrcBytes body), ?_⟩
    rw [check_crc_frame body hlen]
    exact beq_self_eq_true _
  · intro k j hk hj p' hp'
    by_cases hk19 : k < 19
    · -- a body byte is flipped: the stored CRC is stale
      have hkl : k < body.length := by omega
      have hflip : flipBitFrame (frameOf body) k j
          = body.set k ((body.getD k 0) ^^^ (1 <<< j)) ++ [calcCrcBytes body] := by
        unfold flipBitFrame frameOf
        rw [List.getD_append _ _ _ _ hkl, List.set_append_left _ _ hkl]
      rw [hflip, from_bytes_frame _ (by simp [hlen])] at hp'
      cases hp'
      rw [check_crc_frame _ (by simp [hlen])]
      rw [beq_eq_false_iff_ne]
      exact (calcCrcBytes_flip_ne body hlen k j hk19 hj).symm
    · -- the CRC byte itself is flipped
      have hk' : k = 19 := by omega
      subst hk'
      have hflip : flipBitFrame (frameOf body) 19 j
          = body ++ [calcCrcBytes body ^^^ (1 <<< j)] := by
        unfold flipBitFrame frameOf
        rw [List.getD_append_right _ _ _ _ (by omega), hlen,
          List.set_append_right _ _ (by omega), hlen]
        rfl
      rw [hflip, from_bytes_frame _ hlen] at hp'
      cases hp'
      rw [check_crc_frame _ hlen]
      rw [beq_eq_false_iff_ne]
      have hm : (1 <<< j : Nat) ≠ 0 := by
        rw [Nat.one_shiftLeft]
        exact (Nat.pos_pow_of_pos j (by norm_num)).ne'
      exact xor_ne_of_ne_zero hm

/-- Witness for C1 at the all-zero body: the round-trip packet checks, and
flipping bit 0 of byte 0 of the all-zero frame fails the check. -/
theorem C1_crc_roundtrip_single_bit_witness :
    (∃ p, Packet.from_bytes (frameOf (List.replicate 19 0)) = some p ∧
        p.check_crc = true) ∧
    (⟨1, 0, 0, List.replicate 16 0, some 0⟩ : Packet).check_crc = false :=
  ⟨(C1_crc_roundtrip_single_bit (List.replicate 19 0) (by decide) (by decide)).1,
    (C1_crc_roundtrip_single_bit (List.replicate 19 0) (by decide) (by decide)).2
      0 0 (by decide) (by decide) _ (by decide)⟩

/-! ## Domain types (`app/robot/types.py`) -/

/-- Bump state: two booleans. -/
structure Bumper where
  left : Bool
  right : Bool
  deriving DecidableEq, Repr

/-- `Bumper.from_packet`: reads bits `0x80`/`0x40` of payload byte 4. -/
def Bumper.from_packet (packet : Packet) : Bumper :=
  ⟨packet.payload.getD 4 0 &&& 0x80 != 0, packet.payload.getD 4 0 &&& 0x40 != 0⟩

/-- Color-zone reading: a list of color codes (Python ints; the wildcard
`ANY = -1` appears only in filters). -/
structure Color where
  colors : List Int
  deriving DecidableEq, Repr

namespace Color

def WHITE : Int := 0
def BLACK : Int := 1
def RED : Int := 2
def GREEN : Int := 3
def BLUE : Int := 4
def ORANGE : Int := 5
def YELLOW : Int := 6
def MAGENTA : Int := 7
def NONE : Int := 15
def ANY : Int := -1

/-- `Color.from_packet`:
`[c >> i & 0xF for c in packet.payload for i in range(4, -1, -4)]`;
`range(4, -1, -4)` enumerates `[4, 0]`, i.e. high nibble then low nibble. -/
def from_packet (packet : Packet) : Color :=
  ⟨packet.payload.flatMap (fun c => [4, 0].map (fun i => (((c >>> i) &&& 0xF : Nat) : Int)))⟩

end Color

/-- Light comparator state plus two 16-bit readings. -/
structure Light where
  state : Nat
  left : Nat
  right : Nat
  deriving DecidableEq, Repr

namespace Light

def DARKER : Nat := 4
def RIGHT_BRIGHTER : Nat := 5
def LEFT_BRIGHTER : Nat := 6
def LIGHTER : Nat := 7

/-- `Light.from_packet`: byte 4 is the state, bytes 5-6 and 7-8 are the
two big-endian 16-bit readings (`unpack(">H", ...)`). -/
def from_packet (packet : Packet) : Light :=
  ⟨packet.payload.getD 4 0,
   256 * packet.payload.getD 5 0 + packet.payload.getD 6 0,
   256 * packet.payload.getD 7 0 + packet.payload.getD 8 0⟩

end Light

/-- Touch state: four booleans. -/
structure Touch where
  front_left : Bool
  front_right : Bool
  back_right : Bool
  back_left : Bool
  deriving DecidableEq, Repr

/-- `Touch.from_packet`: bits `0x80`/`0x40`/`0x20`/`0x10` of payload byte 4. -/
def Touch.from_packet (packet : Packet) : Touch :=
  ⟨packet.payload.getD 4 0 &&& 0x80 != 0,
   packet.payload.getD 4 0 &&& 0x40 != 0,
   packet.payload.getD 4 0 &&& 0x20 != 0,
   packet.payload.getD 4 0 &&& 0x10 != 0⟩

/-! ### C9: bump decode -/

/-- C9 counterexample: on a packet whose payload has bit `0x80` of byte 0
set but byte 4 zero, the decoded left bumper is not pressed, refuting the
claim that byte 0 drives the decode. -/
theorem C9_bump_byte0_counterexample :
    ¬ ((Bumper.from_packet ⟨12, 0, 0, 0x80 :: List.replicate 15 0, none⟩).left
        = ((0x80 :: List.replicate 15 0 : List Nat).getD 0 0 &&& 0x80 != 0)) := by
  decide

/-- C9 (amended): for every packet, the decoded bump state has left
pressed exactly when bit `0x80` (bit 7) of payload byte 4 is set, and
right pressed exactly when bit `0x40` (bit 6) of payload byte 4 is set. -/
theorem C9_bump_decode (p : Packet) :
    (Bumper.from_packet p).left = (p.payload.getD 4 0).testBit 7 ∧
    (Bumper.from_packet p).right = (p.payload.getD 4 0).testBit 6 := by
  unfold Bumper.from_packet
  constructor
  · show (p.payload.getD 4 0 &&& 0x80 != 0) = (p.payload.getD 4 0).testBit 7
    have h : (0x80 : Nat) = 2 ^ 7 := by norm_num
    rw [h, Nat.and_two_pow]
    rcases ht : (p.payload.getD 4 0).testBit 7 <;> simp [ht]
  · show (p.payload.getD 4 0 &&& 0x40 != 0) = (p.payload.getD 4 0).testBit 6
    have h : (0x40 : Nat) = 2 ^ 6 := by norm_num
    rw [h, Nat.and_two_pow]
    rcases ht : (p.payload.getD 4 0).testBit 6 <;> simp [ht]

/-! ### C10: color decode -/

section Flat2

variable {f g : Nat → Int}

theorem flat2_length (l : List Nat) :
    (l.flatMap (fun c => [f c, g c])).length = 2 * l.length := by
  induction l with
  | nil => rfl
  | cons a t ih => simp [ih]; omega

theorem flat2_getD :
    ∀ (l : List Nat) (k : Nat), k < l.length →
      ((l.flatMap (fun c => [f c, g c])).getD (2 * k) 0 = f (l.getD k 0) ∧
       (l.flatMap (fun c => [f c, g c])).getD (2 * k + 1) 0 = g (l.getD k 0)) := by
  intro l
  induction l with
  | nil => intro k h; simp at h
  | cons a t ih =>
    intro k h
    rcases k with _ | k
    · exact ⟨rfl, rfl⟩
    · have hk : k < t.length := by simpa using h
      have h2 : 2 * (k + 1) = (2 * k + 1) + 1 := by ring
      rw [h2]
      simpa using ih k hk

end Flat2

/-- C10: for every packet whose payload has the 16-byte construction
invariant, the color decode has exactly 32 entries; entry `2k` is the high
nibble and entry `2k+1` the low nibble of payload byte `k`; every entry is
in `[0, 15]` and never the wildcard `-1`. -/
theorem C10_color_decode (p : Packet) (h : p.payload.length = 16) :
    (Color.from_packet p).colors.length = 32 ∧
    (∀ k, k < 16 →
      (Color.from_packet p).colors.getD (2 * k) 0
          = (((p.payload.getD k 0 >>> 4) &&& 0xF : Nat) : Int) ∧
      (Color.from_packet p).colors.getD (2 * k + 1) 0
          = (((p.payload.getD k 0) &&& 0xF : Nat) : Int)) ∧
    (∀ x ∈ (Color.from_packet p).colors, 0 ≤ x ∧ x ≤ 15) ∧
    (∀ x ∈ (Color.from_packet p).colors, x ≠ Color.ANY) := by
  have hrepr : (Color.from_packet p).colors
      = p.payload.flatMap (fun c =>
          [(((c >>> 4) &&& 0xF : Nat) : Int), (((c >>> 0) &&& 0xF : Nat) : Int)]) := by
    unfold Color.from_packet
    rfl
  refine ⟨?_, ?_, ?_, ?_⟩
  · rw [hrepr, flat2_length, h]
  · intro k hk
    rw [hrepr]
    have := flat2_getD (f := fun c => (((c >>> 4) &&& 0xF : Nat) : Int))
      (g := fun c => (((c >>> 0) &&& 0xF : Nat) : Int)) p.payload k (by omega)
    simpa using this
  · intro x hx
    rw [hrepr] at hx
    rcases List.mem_flatMap.mp hx with ⟨c, _, hc⟩
    have hb : ∀ (m : Nat), m &&& 0xF ≤ 15 := fun m => Nat.and_le_right
    simp only [List.mem_cons, List.not_mem_nil, or_false] at hc
    rcases hc with h1 | h1
    · subst h1
      exact ⟨Int.natCast_nonneg _, by exact_mod_cast hb ((c >>> 4))⟩
    · subst h1
      exact ⟨Int.natCast_nonneg _, by exact_mod_cast hb ((c >>> 0))⟩
  · intro x hx
    rw [hrepr] at hx
    rcases List.mem_flatMap.mp hx with ⟨c, _, hc⟩
    simp only [List.mem_cons, List.not_mem_nil, or_false] at hc
    rcases hc with h1 | h1
    · subst h1; unfold Color.ANY; omega
    · subst h1; unfold Color.ANY; omega

/-- Witness for C10 at a concrete packet. -/
theorem C10_color_decode_witness :
    (Color.from_packet ⟨4, 2, 0, List.replicate 16 0x1F, none⟩).colors.length = 32 ∧
    (Color.from_packet ⟨4, 2, 0, List.replicate 16 0x1F, none⟩).colors.getD 0 0 = 1 :=
  ⟨(C10_color_decode ⟨4, 2, 0, List.replicate 16 0x1F, none⟩ (by decide)).1,
    by
      have := ((C10_color_decode ⟨4, 2, 0, List.replicate 16 0x1F, none⟩
        (by decide)).2.1 0 (by decide)).1
      simpa using this⟩

/-! ## Protocol engine (`app/robot/robot.py`)

The `Robot` facade is modelled as a state record plus explicit state
transition functions.  `asyncio` futures live in an explicit id-indexed
store (`futures`); the pending-response table maps correlation keys to
future ids so that resolving a slot after its table entry is popped stays
observable, as it is in the Python program where the awaiting coroutine
shares the future object.  Each `async` command is modelled up to its
suspension point (`await future`): the part of the function that runs
synchronously before the engine yields.  Python exceptions (`TypeError`
from `create_task(None)` or from comparing an `Enum` with an `int`,
`assert` failures, division/range errors in the color filter) are modelled
as explicit error values. -/

/-- Python exceptions the modelled code can raise. -/
inductive PyError where
  | typeError
  | assertionError
  | zeroDivisionError
  | valueError
  | structError
  deriving DecidableEq, Repr

/-- An `asyncio` future: single-resolution slot. `done()` is true for both
`resolved` and `cancelled`; `set_result` only happens while `pending`. -/
inductive Fut where
  | pending
  | resolved (p : Packet)
  | cancelled
  deriving DecidableEq, Repr

/-- A Python value produced by an event filter and handed to the handler.
Python truthiness: `None` is modelled by `Option.none` at the use sites;
`False` is falsy; every object (packet, dataclass instance) is truthy. -/
inductive PyArg where
  | bool (b : Bool)
  | pkt (p : Packet)
  | colorArg (c : Color)
  | bumpArg (b : Bumper)
  | lightArg (l : Light)
  | touchArg (t : Touch)
  deriving DecidableEq, Repr

def PyArg.truthy : PyArg → Bool
  | .bool b => b
  | _ => true

/-- The filter functions the program registers: one per decorator
(`on_color`, `on_bump`, `on_light`, `on_touch`, carrying the decorator's
`filter` argument) and the three closures installed by `run()`. -/
inductive FilterFn where
  | stopFilter                       -- `lambda packet: packet`
  | stallFilter                      -- `lambda packet: False`
  | cliffFilter                      -- `lambda packet: packet.payload[4] == 0`
  | colorFilter (flt : Option Color)
  | bumpFilter (flt : Option Bumper)
  | lightFilter (flt : Option Light)
  | touchFilter (flt : Option Touch)
  deriving DecidableEq, Repr

/-- The callbacks the program registers: the `run()` built-ins plus
user handlers (all user handlers are `async`; `enable_motors` is a plain
function). -/
inductive Callback where
  | stopCb           -- `lambda packet: self.stop()`, returns a coroutine
  | enableMotorsCb   -- `self.enable_motors`, a plain (non-async) function
  | userCb (id : Nat)
  deriving DecidableEq, Repr

/-- An entry of the event-task table (`self._tasks`). -/
structure Task where
  cb : Callback
  arg : PyArg
  cancelled : Bool
  deriving DecidableEq, Repr

/-- Association-list lookup with Python `dict` semantics (keys unique in
reachable states; first match elsewhere). -/
def lookupKey {α β : Type} [DecidableEq α] (k : α) : List (α × β) → Option β
  | [] => none
  | (a, b) :: t => if a = k then some b else lookupKey k t

/-- `dict.pop(k)`: remove the entry for `k`. -/
def eraseKey {α β : Type} [DecidableEq α] (k : α) : List (α × β) → List (α × β)
  | [] => []
  | (a, b) :: t => if a = k then t else (a, b) :: eraseKey k t

/-- `d[k] = v`: overwrite or append. -/
def setKey {α β : Type} [DecidableEq α] (k : α) (v : β) : List (α × β) → List (α × β)
  | [] => [(k, v)]
  | (a, b) :: t => if a = k then (k, v) :: t else (a, b) :: setKey k v t

/-- The engine state: `self._responses` (correlation key → future id),
the future store, the next fresh future id, `self._events`,
`self._tasks`, `self._inc`, `self._running`, `self._enable_motors`. -/
structure RobotState where
  responses : List ((Nat × Nat × Nat) × Nat)
  futures : List (Nat × Fut)
  nextFut : Nat
  events : List ((Nat × Nat) × List (FilterFn × Callback))
  tasks : List ((Nat × Nat) × Task)
  inc : Nat
  running : Bool
  enableMotors : Bool
  deriving DecidableEq, Repr

namespace Robot

/-- `Robot.__init__`: empty tables, counter 0, not running, motors
enabled. -/
def initState : RobotState :=
  { responses := [], futures := [], nextFut := 0, events := [], tasks := [],
    inc := 0, running := false, enableMotors := true }

/-- The `inc` property: return `self._inc`, then increment it, wrapping to
0 when the incremented value exceeds 255. -/
def incRead (s : RobotState) : Nat × RobotState :=
  let inc := s.inc
  let i := s.inc + 1
  (inc, { s with inc := if i > 255 then 0 else i })

/-- `Robot.bound` on Python ints: `min(high, max(low, value))`. -/
def bound (value low high : Int) : Int :=
  min high (max low value)

/-- `Robot.run`: clear the three tables, install the three built-in
subscriptions, reset the counter, set running.  (`self._enable_motors`
and the future objects of earlier requests are not touched.) -/
def run (s : RobotState) : RobotState :=
  { s with
    responses := [],
    events := [((0, 4), [(.stopFilter, .stopCb)]),
               ((1, 29), [(.stallFilter, .enableMotorsCb)]),
               ((20, 0), [(.cliffFilter, .enableMotorsCb)])],
    tasks := [],
    inc := 0,
    running := true }

/-- `Robot.is_running`. -/
def is_running (s : RobotState) : Bool := s.running

/-- `Robot.enable_motors`. -/
def enable_motors (s : RobotState) (enable : Bool) : RobotState :=
  { s with enableMotors := enable }

end Robot

/-- Python `round(a / b)` for naturals: the float quotients reachable here
(both operands at most 64) round exactly like the rational `a / b`, with
ties (only possible at exact halves) rounded to even, as CPython does. -/
def pyRoundDiv (a b : Nat) : Nat :=
  let q := a / b
  let r := a % b
  if 2 * r < b then q
  else if 2 * r > b then q + 1
  else if q % 2 = 0 then q else q + 1

/-- The zone slices `[colors[i : i + chunk] for i in range(0, len, chunk)]`
(for `chunk > 0`; a zero step makes `range` raise, handled at the caller). -/
def sliceChunks (l : List Int) (chunk : Nat) : List (List Int) :=
  (List.range ((l.length + chunk - 1) / chunk)).map
    (fun i => (l.drop (i * chunk)).take chunk)

/-- Evaluate a registered filter on an inbound packet.  Returns the Python
value the filter function returns (`none` for Python `None`), or the
exception it raises.  The color filter follows `on_color`'s
`filter_function`: decode, compute the zone size with Python `round`,
slice the 32 decoded nibbles into zones, and require every filter entry to
be the wildcard or a member of its zone. -/
def evalFilter : FilterFn → Packet → Except PyError (Option PyArg)
  | .stopFilter, p => .ok (some (.pkt p))
  | .stallFilter, _ => .ok (some (.bool false))
  | .cliffFilter, p => .ok (some (.bool (p.payload.getD 4 0 == 0)))
  | .colorFilter flt, p =>
    let color := Color.from_packet p
    match flt with
    | none => .ok (some (.colorArg color))
    | some f =>
      if f.colors.length = 0 then .error .zeroDivisionError
      else
        let chunk := pyRoundDiv color.colors.length f.colors.length
        if chunk = 0 then .error .valueError
        else
          let zones := sliceChunks color.colors chunk
          let pairs := f.colors.zip zones
          if pairs.all (fun x => x.1 == Color.ANY || x.2.contains x.1)
          then .ok (some (.colorArg color)) else .ok none
  | .bumpFilter flt, p =>
    let bumper := Bumper.from_packet p
    match flt with
    | none => .ok (some (.bumpArg bumper))
    | some f => .ok (if f = bumper then some (.bumpArg bumper) else none)
  | .lightFilter flt, p =>
    let light := Light.from_packet p
    match flt with
    | none => .ok (some (.lightArg light))
    | some f => .ok (if f.state = light.state then some (.lightArg light) else none)
  | .touchFilter flt, p =>
    let touch := Touch.from_packet p
    match flt with
    | none => .ok (some (.touchArg touch))
    | some f => .ok (if f = touch then some (.touchArg touch) else none)

/-- `self._tasks[key].cancel()` when the key is present: mark the stored
task cancelled in place. -/
def cancelTaskAt (tasks : List ((Nat × Nat) × Task)) (k : Nat × Nat) :
    List ((Nat × Nat) × Task) :=
  match lookupKey k tasks with
  | none => tasks
  | some t => setKey k { t with cancelled := true } tasks

/-- The outcome of one `_data_received` call: the new state, the handler
invocations started (in order), and the exception that escaped the
callback, if any. -/
structure DispatchOut where
  state : RobotState
  started : List (Callback × PyArg)
  err : Option PyError
  deriving DecidableEq, Repr

/-- The event-dispatch loop of `_data_received`: for each registered
(filter, callback) pair under the packet's event key, evaluate the filter;
on a truthy result cancel any previous task under the key, then
`create_task(callback(args))`.  Calling an `async` callback builds a
coroutine, which becomes the new table entry; calling the plain function
`enable_motors` runs it immediately (storing the truthiness of its
argument) and returns `None`, so `create_task(None)` raises `TypeError`
and the loop aborts. -/
def processSubs (ekey : Nat × Nat) (p : Packet) :
    List (FilterFn × Callback) → RobotState → List (Callback × PyArg) → DispatchOut
  | [], s, acc => ⟨s, acc.reverse, none⟩
  | (f, cb) :: rest, s, acc =>
    match evalFilter f p with
    | .error e => ⟨s, acc.reverse, some e⟩
    | .ok none => processSubs ekey p rest s acc
    | .ok (some args) =>
      if args.truthy then
        let s1 := { s with tasks := cancelTaskAt s.tasks ekey }
        match cb with
        | .enableMotorsCb =>
          ⟨{ s1 with enableMotors := args.truthy },
            ((cb, args) :: acc).reverse, some .typeError⟩
        | _ =>
          processSubs ekey p rest
            { s1 with tasks := setKey ekey ⟨cb, args, false⟩ s1.tasks }
            ((cb, args) :: acc)
      else processSubs ekey p rest s acc

/-- `Robot._data_received`: ignore frames while not running; rebuild the
packet (length assert), drop it on a CRC mismatch; pop and, if still
pending, resolve its correlation slot; then run the event-dispatch loop
for the packet's event key. -/
def Robot.dataReceived (s : RobotState) (data : List Nat) : DispatchOut :=
  if ¬ s.running then ⟨s, [], none⟩
  else
    match Packet.from_bytes data with
    | none => ⟨s, [], some .assertionError⟩
    | some p =>
      if ¬ p.check_crc then ⟨s, [], none⟩
      else
        let key := (p.dev, p.cmd, p.inc)
        let s1 :=
          match lookupKey key s.responses with
          | none => s
          | some fid =>
            let s' := { s with responses := eraseKey key s.responses }
            match lookupKey fid s'.futures with
            | some Fut.pending =>
              { s' with futures := setKey fid (Fut.resolved p) s'.futures }
            | _ => s'
        let ekey := (p.dev, p.cmd)
        match lookupKey ekey s1.events with
        | none => ⟨s1, [], none⟩
        | some subs => processSubs ekey p subs s1 []

/-- Registration shared by the decorators: append the pair to the
defaultdict list under the event key. -/
def Robot.registerEvent (s : RobotState) (key : Nat × Nat)
    (sub : FilterFn × Callback) : RobotState :=
  { s with events := setKey key ((lookupKey key s.events).getD [] ++ [sub]) s.events }

/-- `Robot.on_color`: register under key (4, 2). -/
def Robot.on_color (s : RobotState) (flt : Option Color) (cb : Nat) : RobotState :=
  Robot.registerEvent s (4, 2) (.colorFilter flt, .userCb cb)

/-- `Robot.on_bump`: register under key (12, 0). -/
def Robot.on_bump (s : RobotState) (flt : Option Bumper) (cb : Nat) : RobotState :=
  Robot.registerEvent s (12, 0) (.bumpFilter flt, .userCb cb)

/-- `Robot.on_light`: register under key (13, 0). -/
def Robot.on_light (s : RobotState) (flt : Option Light) (cb : Nat) : RobotState :=
  Robot.registerEvent s (13, 0) (.lightFilter flt, .userCb cb)

/-- `Robot.on_touch`: register under key (17, 0). -/
def Robot.on_touch (s : RobotState) (flt : Option Touch) (cb : Nat) : RobotState :=
  Robot.registerEvent s (17, 0) (.touchFilter flt, .userCb cb)

/-! ### Commands

Speed/angle/distance arguments are Python floats; the embedding takes the
integer-valued case (`Int`), under which `int(x * 10)` is exactly
`x * 10`.  Everything after the `await future` suspension point is not
part of the synchronous transition modelled here. -/

/-- The four big-endian two's-complement bytes of an in-range int
(the encoding used by struct's i/I formats). -/
def int32Bytes (v : Int) : List Nat :=
  let u := (v % (2 : Int) ^ 32).toNat
  [(u >>> 24) &&& 0xFF, (u >>> 16) &&& 0xFF, (u >>> 8) &&& 0xFF, u &&& 0xFF]

/-- Python struct pack of one signed 32-bit int; out-of-range values raise
struct.error, modelled as none. -/
def packI32 (v : Int) : Option (List Nat) :=
  if -(2 : Int) ^ 31 ≤ v ∧ v < (2 : Int) ^ 31 then some (int32Bytes v) else none

/-- The outcome of one command call up to its suspension point: the new
state, the frames written to the transport, and the exception that
escaped, if any. -/
structure CmdOut where
  state : RobotState
  sent : List (List Nat)
  err : Option PyError
  deriving DecidableEq, Repr

/-- `Robot.write_packet`: send only while running. -/
def Robot.write_packet (s : RobotState) (p : Packet) : RobotState × List (List Nat) :=
  if s.running then (s, [p.to_bytes]) else (s, [])

/-- Allocate a fresh future and register it in the pending-response table
under the given correlation key (the create_future / table-insert pair
every reply-awaiting command performs before sending). -/
def Robot.addResponseSlot (s : RobotState) (key : Nat × Nat × Nat) :
    Nat × RobotState :=
  let fid := s.nextFut
  (fid, { s with futures := s.futures ++ [(fid, Fut.pending)],
                 nextFut := fid + 1,
                 responses := setKey key fid s.responses })

/-- `Robot.set_speeds`: gated on the motor flag; both arguments converted
to tenths and clamped to plus-minus 100, then packed big-endian. -/
def Robot.set_speeds (s : RobotState) (left right : Int) : CmdOut :=
  if s.enableMotors then
    let l := Robot.bound (left * 10) (-100) 100
    let r := Robot.bound (right * 10) (-100) 100
    let (inc, s1) := Robot.incRead s
    match packI32 l, packI32 r with
    | some bl, some br =>
      match Packet.init 1 4 inc (bl ++ br) none with
      | some p =>
        let (s2, out) := Robot.write_packet s1 p
        ⟨s2, out, none⟩
      | none => ⟨s1, [], some .assertionError⟩
    | _, _ => ⟨s1, [], some .structError⟩
  else ⟨s, [], none⟩

/-- `Robot.set_left_speed`. -/
def Robot.set_left_speed (s : RobotState) (speed : Int) : CmdOut :=
  if s.enableMotors then
    let v := Robot.bound (speed * 10) (-100) 100
    let (inc, s1) := Robot.incRead s
    match packI32 v with
    | some bv =>
      match Packet.init 1 6 inc bv none with
      | some p =>
        let (s2, out) := Robot.write_packet s1 p
        ⟨s2, out, none⟩
      | none => ⟨s1, [], some .assertionError⟩
    | none => ⟨s1, [], some .structError⟩
  else ⟨s, [], none⟩

/-- `Robot.set_right_speed`. -/
def Robot.set_right_speed (s : RobotState) (speed : Int) : CmdOut :=
  if s.enableMotors then
    let v := Robot.bound (speed * 10) (-100) 100
    let (inc, s1) := Robot.incRead s
    match packI32 v with
    | some bv =>
      match Packet.init 1 7 inc bv none with
      | some p =>
        let (s2, out) := Robot.write_packet s1 p
        ⟨s2, out, none⟩
      | none => ⟨s1, [], some .assertionError⟩
    | none => ⟨s1, [], some .structError⟩
  else ⟨s, [], none⟩

/-- `Robot.drive_distance`: unclamped distance in tenths; registers a
pending-response slot before sending, then awaits it. -/
def Robot.drive_distance (s : RobotState) (distance : Int) : CmdOut :=
  if s.enableMotors then
    let (inc, s1) := Robot.incRead s
    match packI32 (distance * 10) with
    | none => ⟨s1, [], some .structError⟩
    | some pb =>
      match Packet.init 1 8 inc pb none with
      | none => ⟨s1, [], some .assertionError⟩
      | some packet =>
        let (_, s2) := Robot.addResponseSlot s1 (1, 8, inc)
        let (s3, out) := Robot.write_packet s2 packet
        ⟨s3, out, none⟩
  else ⟨s, [], none⟩

/-- `Robot.turn_right`. -/
def Robot.turn_right (s : RobotState) (angle : Int) : CmdOut :=
  if s.enableMotors then
    let (inc, s1) := Robot.incRead s
    match packI32 (angle * 10) with
    | none => ⟨s1, [], some .structError⟩
    | some pb =>
      match Packet.init 1 12 inc pb none with
      | none => ⟨s1, [], some .assertionError⟩
      | some packet =>
        let (_, s2) := Robot.addResponseSlot s1 (1, 12, inc)
        let (s3, out) := Robot.write_packet s2 packet
        ⟨s3, out, none⟩
  else ⟨s, [], none⟩

/-- `Robot.turn_left`: `turn_right(-angle)`. -/
def Robot.turn_left (s : RobotState) (angle : Int) : CmdOut :=
  Robot.turn_right s (-angle)

/-- `Robot.arc`: unclamped angle and radius in tenths. -/
def Robot.arc (s : RobotState) (angle radius : Int) : CmdOut :=
  if s.enableMotors then
    let (inc, s1) := Robot.incRead s
    match packI32 (angle * 10), packI32 (radius * 10) with
    | some ba, some br =>
      match Packet.init 1 27 inc (ba ++ br) none with
      | none => ⟨s1, [], some .assertionError⟩
      | some packet =>
        let (_, s2) := Robot.addResponseSlot s1 (1, 27, inc)
        let (s3, out) := Robot.write_packet s2 packet
        ⟨s3, out, none⟩
    | _, _ => ⟨s1, [], some .structError⟩
  else ⟨s, [], none⟩

/-! ### Python comparison semantics for the marker clamp

`set_marker` calls `self.bound(position, Marker.UP, Marker.ERASE)` where
`Marker` is a plain `enum.Enum`: its members support no ordering
comparison, with an `int` or with each other, so `max`/`min` raise
`TypeError` in CPython (the runtime is Pyodide). -/

/-- A Python value at the `bound` call sites: an int or a plain-Enum
member (class tag, member value). -/
inductive PyVal where
  | int (n : Int)
  | enumMember (cls val : Nat)
  deriving DecidableEq, Repr

/-- Python a > b: defined for two ints, TypeError (none) whenever a plain
Enum member is involved. -/
def pyGt : PyVal → PyVal → Option Bool
  | .int a, .int b => some (b < a)
  | _, _ => none

/-- Python a < b. -/
def pyLt : PyVal → PyVal → Option Bool
  | .int a, .int b => some (a < b)
  | _, _ => none

/-- Python max(a, b): keeps a unless b > a. -/
def pyMax (a b : PyVal) : Option PyVal :=
  (pyGt b a).map (fun g => if g then b else a)

/-- Python min(a, b): keeps a unless b < a. -/
def pyMin (a b : PyVal) : Option PyVal :=
  (pyLt b a).map (fun l => if l then b else a)

/-- `Robot.bound` as executed on Python values:
`min(high, max(low, value))`. -/
def Robot.boundPy (value low high : PyVal) : Option PyVal :=
  (pyMax low value).bind (fun m => pyMin high m)

/-- On ints, the Python execution of `bound` agrees with the `Int`
shortcut used in the speed commands. -/
theorem boundPy_int (v lo hi : Int) :
    Robot.boundPy (.int v) (.int lo) (.int hi) = some (.int (Robot.bound v lo hi)) := by
  unfold Robot.boundPy Robot.bound pyMax pyMin pyGt pyLt
  by_cases h1 : lo < v
  · by_cases h2 : v < hi
    · simp [h1, h2]; omega
    · simp [h1, h2]; omega
  · by_cases h2 : lo < hi
    · simp [h1, h2]; omega
    · simp [h1, h2]; omega

/-- `Robot.set_marker`: gated on the motor flag; reads the sequence value,
then evaluates `bytes([self.bound(position, Marker.UP, Marker.ERASE)])`,
which raises TypeError because the plain-Enum bounds are unorderable. -/
def Robot.set_marker (s : RobotState) (position : Int) : CmdOut :=
  if s.enableMotors then
    let (inc, s1) := Robot.incRead s
    match Robot.boundPy (.int position) (.enumMember 0 0) (.enumMember 0 2) with
    | none => ⟨s1, [], some .typeError⟩
    | some (.enumMember _ _) => ⟨s1, [], some .typeError⟩
    | some (.int n) =>
      if 0 ≤ n ∧ n ≤ 255 then
        match Packet.init 2 0 inc [n.toNat] none with
        | none => ⟨s1, [], some .assertionError⟩
        | some packet =>
          let (_, s2) := Robot.addResponseSlot s1 (2, 0, inc)
          let (s3, out) := Robot.write_packet s2 packet
          ⟨s3, out, none⟩
      else ⟨s1, [], some .valueError⟩
  else ⟨s, [], none⟩

/-! ## Claim theorems about the engine -/

/-- C8: packet construction pads any payload of length at most 16 with
trailing zero bytes to exactly 16 bytes (a 16-byte payload is stored
unchanged); construction with a longer payload fails the length assert. -/
theorem C8_payload_padding (dev cmd inc : Nat) (payload : List Nat)
    (crc : Option Nat) :
    (payload.length ≤ 16 →
      ∃ p, Packet.init dev cmd inc payload crc = some p ∧
        p.payload = payload ++ List.replicate (16 - payload.length) 0 ∧
        p.payload.length = 16 ∧
        (payload.length = 16 → p.payload = payload)) ∧
    (16 < payload.length → Packet.init dev cmd inc payload crc = none) := by
  constructor
  · intro h
    have hinit : Packet.init dev cmd inc payload crc
        = some ⟨dev, cmd, inc,
            payload ++ List.replicate (16 - payload.length) 0, crc⟩ := by
      unfold Packet.init PAYLOAD_LEN
      rw [if_pos h]
    refine ⟨_, hinit, rfl, ?_, ?_⟩
    · simp only [List.length_append, List.length_replicate]
      omega
    · intro h16
      simp [h16]
  · intro h
    unfold Packet.init PAYLOAD_LEN
    rw [if_neg (by omega)]

/-- Witness for C8: a 3-byte payload is padded to 16; a 17-byte payload is
rejected. -/
theorem C8_payload_padding_witness :
    (∃ p, Packet.init 0 0 0 [1, 2, 3] none = some p ∧
      p.payload = [1, 2, 3] ++ List.replicate (16 - ([1, 2, 3] : List Nat).length) 0 ∧
      p.payload.length = 16 ∧
      (([1, 2, 3] : List Nat).length = 16 → p.payload = [1, 2, 3])) ∧
    Packet.init 0 0 0 (List.replicate 17 0) none = none :=
  ⟨(C8_payload_padding 0 0 0 [1, 2, 3] none).1 (by decide),
   (C8_payload_padding 0 0 0 (List.replicate 17 0) none).2 (by decide)⟩

/-! ### C3: sequence counter -/

/-- The counter update of the `inc` property, isolated. -/
def incStep (c : Nat) : Nat :=
  if c + 1 > 255 then 0 else c + 1

/-- The engine state after n allocations of the sequence value. -/
def Robot.seqState (s : RobotState) (n : Nat) : RobotState :=
  (fun t => (Robot.incRead t).2)^[n] s

/-- The value returned by the (n+1)-st allocation (0-indexed n). -/
def Robot.seqValue (s : RobotState) (n : Nat) : Nat :=
  (Robot.incRead (Robot.seqState s n)).1

theorem seqState_inc (s : RobotState) (n : Nat) :
    (Robot.seqState s n).inc = incStep^[n] s.inc := by
  induction n with
  | zero => rfl
  | succ n ih =>
    unfold Robot.seqState at *
    rw [Function.iterate_succ_apply', Function.iterate_succ_apply', ← ih]
    rfl

theorem incStep_iterate (n : Nat) : incStep^[n] 0 = n % 256 := by
  induction n with
  | zero => rfl
  | succ n ih =>
    rw [Function.iterate_succ_apply', ih]
    unfold incStep
    by_cases h : n % 256 = 255
    · rw [if_pos (by omega)]
      omega
    · rw [if_neg (by omega)]
      omega

/-- C3: from a counter of 0 the allocator returns 0, 1, ..., 255 on the
first 256 allocations and 0 again on the 257th; after every allocation the
stored counter is at most 255. -/
theorem C3_sequence_wraparound (s : RobotState) (h : s.inc = 0) :
    (∀ n, n < 256 → Robot.seqValue s n = n) ∧
    Robot.seqValue s 256 = 0 ∧
    (∀ n, (Robot.seqState s (n + 1)).inc ≤ 255) := by
  have hv : ∀ n, Robot.seqValue s n = n % 256 := by
    intro n
    unfold Robot.seqValue Robot.incRead
    simp only [seqState_inc, h, incStep_iterate]
  refine ⟨fun n hn => ?_, ?_, fun n => ?_⟩
  · rw [hv]; omega
  · rw [hv]
  · rw [seqState_inc, h, incStep_iterate]
    omega

/-- Witness for C3 at the freshly constructed engine state. -/
theorem C3_sequence_wraparound_witness :
    Robot.seqValue Robot.initState 5 = 5 ∧
    Robot.seqValue Robot.initState 256 = 0 :=
  ⟨(C3_sequence_wraparound Robot.initState rfl).1 5 (by norm_num),
   (C3_sequence_wraparound Robot.initState rfl).2.1⟩

/-! ### C4: what run() resets -/

/-- C4 counterexample: run() does not touch the motor flag, so from a
state with motors disabled the engine comes out of run() with motors still
disabled, refuting the claim that motor commands are enabled after run()
regardless of the state before the call. -/
theorem C4_run_motors_counterexample :
    ¬ ((Robot.run { Robot.initState with enableMotors := false }).enableMotors
        = true) := by
  decide

/-- C4 (amended): after run() the sequence counter is 0, the
pending-response and event-task tables are empty, the event table holds
exactly the three built-in subscriptions, and the engine is running; the
motor flag keeps whatever value it had before the call. -/
theorem C4_run_resets (s : RobotState) :
    (Robot.run s).inc = 0 ∧
    (Robot.run s).responses = [] ∧
    (Robot.run s).tasks = [] ∧
    (Robot.run s).events
      = [((0, 4), [(FilterFn.stopFilter, Callback.stopCb)]),
         ((1, 29), [(FilterFn.stallFilter, Callback.enableMotorsCb)]),
         ((20, 0), [(FilterFn.cliffFilter, Callback.enableMotorsCb)])] ∧
    (Robot.run s).running = true ∧
    (Robot.run s).enableMotors = s.enableMotors :=
  ⟨rfl, rfl, rfl, rfl, rfl, rfl⟩

/-! ### C6: motor-gated commands are no-ops while motors are disabled -/

/-- C6: with the motor flag cleared, each of the eight motor-gated
commands returns the state unchanged (counter and all tables included),
sends nothing, and raises nothing. -/
theorem C6_motor_gated_noop (s : RobotState) (h : s.enableMotors = false)
    (a b : Int) :
    Robot.set_speeds s a b = ⟨s, [], none⟩ ∧
    Robot.set_left_speed s a = ⟨s, [], none⟩ ∧
    Robot.set_right_speed s a = ⟨s, [], none⟩ ∧
    Robot.drive_distance s a = ⟨s, [], none⟩ ∧
    Robot.turn_right s a = ⟨s, [], none⟩ ∧
    Robot.turn_left s a = ⟨s, [], none⟩ ∧
    Robot.arc s a b = ⟨s, [], none⟩ ∧
    Robot.set_marker s a = ⟨s, [], none⟩ := by
  refine ⟨?_, ?_, ?_, ?_, ?_, ?_, ?_, ?_⟩ <;>
    simp [Robot.set_speeds, Robot.set_left_speed, Robot.set_right_speed,
      Robot.drive_distance, Robot.turn_right, Robot.turn_left, Robot.arc,
      Robot.set_marker, h]

/-- Witness for C6 at a concrete disabled state. -/
theorem C6_motor_gated_noop_witness :
    Robot.set_speeds { Robot.initState with running := true, enableMotors := false }
        3 (-4)
      = ⟨{ Robot.initState with running := true, enableMotors := false }, [], none⟩ ∧
    Robot.set_marker { Robot.initState with running := true, enableMotors := false } 3
      = ⟨{ Robot.initState with running := true, enableMotors := false }, [], none⟩ :=
  ⟨(C6_motor_gated_noop _ rfl 3 (-4)).1,
   (C6_motor_gated_noop _ rfl 3 (-4)).2.2.2.2.2.2.2⟩

/-! ### C7: clamping, and the marker TypeError -/

/-- C7 evidence: each speed argument is converted to tenths and clamped
into [-100, 100]; set_speeds(150, -150) sends one frame whose two 32-bit
speed fields hold 100 and -100; but set_marker(99) raises TypeError from
comparing the int argument with the unorderable plain-Enum bounds, sending
nothing, instead of clamping to marker code 2. -/
theorem C7_speed_clamp_marker_typeerror :
    (∀ v : Int, -100 ≤ Robot.bound (v * 10) (-100) 100 ∧
      Robot.bound (v * 10) (-100) 100 ≤ 100) ∧
    Robot.bound (150 * 10) (-100) 100 = 100 ∧
    Robot.bound ((-150) * 10) (-100) 100 = -100 ∧
    List.take 8 (List.drop 3
        ((Robot.set_speeds { Robot.initState with running := true } 150 (-150)).sent.headD []))
      = int32Bytes 100 ++ int32Bytes (-100) ∧
    (Robot.set_speeds { Robot.initState with running := true } 150 (-150)).err = none ∧
    Robot.boundPy (.int 99) (.enumMember 0 0) (.enumMember 0 2) = none ∧
    Robot.set_marker { Robot.initState with running := true } 99
      = ⟨{ Robot.initState with running := true, inc := 1 }, [],
         some PyError.typeError⟩ := by
  refine ⟨fun v => ?_, by decide, by decide, by decide, by decide, by decide, by decide⟩
  unfold Robot.bound
  omega

/-! ### C5: the stall/cliff built-ins do not disable motors -/

/-- C5 evidence, by direct evaluation of the embedded dispatch.
A valid stall frame (device 1, command 29) arriving right after run()
leaves the engine state completely unchanged — the built-in stall filter
is the constant False, so the enable_motors handler never fires and the
motor flag stays enabled.  A valid cliff frame (device 20, command 0,
payload byte 4 = 0) arriving with motors disabled sets the motor flag to
True (the handler is called as enable_motors(True)) and then raises
TypeError because the plain function result None reaches create_task; the
motor flag ends up enabled, not disabled. -/
theorem C5_stall_cliff_do_not_disable :
    (Robot.dataReceived (Robot.run Robot.initState)
        (frameOf ([1, 29, 0] ++ List.replicate 16 0))).state
      = Robot.run Robot.initState ∧
    (Robot.dataReceived (Robot.run Robot.initState)
        (frameOf ([1, 29, 0] ++ List.replicate 16 0))).state.enableMotors = true ∧
    (Robot.dataReceived (Robot.run Robot.initState)
        (frameOf ([1, 29, 0] ++ List.replicate 16 0))).started = [] ∧
    (Robot.dataReceived { Robot.run Robot.initState with enableMotors := false }
        (frameOf ([20, 0, 0] ++ List.replicate 16 0))).state.enableMotors = true ∧
    (Robot.dataReceived { Robot.run Robot.initState with enableMotors := false }
        (frameOf ([20, 0, 0] ++ List.replicate 16 0))).err
      = some PyError.typeError := by
  decide

/-! ### C2: inbound dispatch, correlation and delivery -/

/-- The (callback, argument) pairs the dispatch loop starts for a packet,
in registration order: the subscribers whose filter returns a truthy
value. -/
def firedSubs (p : Packet) (subs : List (FilterFn × Callback)) :
    List (Callback × PyArg) :=
  subs.filterMap (fun sub =>
    match evalFilter sub.1 p with
    | .ok (some a) => if a.truthy then some (sub.2, a) else none
    | _ => none)

/-- A subscriber list is clean for a packet when no filter raises and no
matching subscriber carries the plain (non-async) enable_motors callback:
exactly the situations in which the dispatch loop runs to completion.
Every user-registered subscriber list is clean. -/
def cleanSubs (p : Packet) (subs : List (FilterFn × Callback)) : Bool :=
  subs.all (fun sub =>
    match evalFilter sub.1 p with
    | .error _ => false
    | .ok none => true
    | .ok (some a) => !(a.truthy && (sub.2 == Callback.enableMotorsCb)))

theorem lookupKey_setKey_self {α β : Type} [DecidableEq α] (k : α) (v : β) :
    ∀ l : List (α × β), lookupKey k (setKey k v l) = some v := by
  intro l
  induction l with
  | nil => simp [setKey, lookupKey]
  | cons hd t ih =>
    obtain ⟨a, b⟩ := hd
    by_cases h : a = k
    · simp [setKey, lookupKey, h]
    · simp [setKey, lookupKey, h, ih]

/-- The dispatch loop never touches the pending-response table or the
future store: it only cancels/replaces tasks and runs enable_motors. -/
theorem processSubs_preserves (ekey : Nat × Nat) (p : Packet) :
    ∀ (subs : List (FilterFn × Callback)) (s : RobotState)
      (acc : List (Callback × PyArg)),
      (processSubs ekey p subs s acc).state.responses = s.responses ∧
      (processSubs ekey p subs s acc).state.futures = s.futures ∧
      (processSubs ekey p subs s acc).state.events = s.events ∧
      (processSubs ekey p subs s acc).state.inc = s.inc ∧
      (processSubs ekey p subs s acc).state.running = s.running := by
  intro subs
  induction subs with
  | nil => intro s acc; exact ⟨rfl, rfl, rfl, rfl, rfl⟩
  | cons hd t ih =>
    intro s acc
    obtain ⟨f, cb⟩ := hd
    rcases hev : evalFilter f p with e | oa
    · simp [processSubs, hev]
    · rcases oa with _ | a
      · simpa [processSubs, hev] using ih s acc
      · by_cases ht : a.truthy
        · rcases cb with _ | _ | id
          · simpa [processSubs, hev, ht] using ih _ _
          · simp [processSubs, hev, ht]
          · simpa [processSubs, hev, ht] using ih _ _
        · simpa [processSubs, hev, ht] using ih s acc

/-- On a clean subscriber list the dispatch loop runs to completion,
starting exactly the matching subscribers in order. -/
theorem processSubs_started (ekey : Nat × Nat) (p : Packet) :
    ∀ (subs : List (FilterFn × Callback)) (s : RobotState)
      (acc : List (Callback × PyArg)),
      cleanSubs p subs = true →
      (processSubs ekey p subs s acc).started = acc.reverse ++ firedSubs p subs ∧
      (processSubs ekey p subs s acc).err = none := by
  intro subs
  induction subs with
  | nil => intro s acc hc; simp [processSubs, firedSubs]
  | cons hd t ih =>
    intro s acc hc
    obtain ⟨f, cb⟩ := hd
    rcases hev : evalFilter f p with e | oa
    · exfalso
      simp [cleanSubs, hev] at hc
    · have hct : cleanSubs p t = true := by
        simp only [cleanSubs, List.all_cons, Bool.and_eq_true] at hc
        exact hc.2
      rcases oa with _ | a
      · have := ih s acc hct
        simpa [processSubs, hev, firedSubs] using this
      · by_cases ht : a.truthy
        · have hcb : (cb == Callback.enableMotorsCb) = false := by
            simp only [cleanSubs, List.all_cons, Bool.and_eq_true] at hc
            have h1 := hc.1
            rw [hev] at h1
            simp only [ht, Bool.true_and, Bool.not_eq_true'] at h1
            exact h1
          rcases cb with _ | _ | id
          · simpa [processSubs, hev, ht, firedSubs] using
              ih { s with tasks := setKey ekey ⟨Callback.stopCb, a, false⟩ (cancelTaskAt s.tasks ekey) } ((Callback.stopCb, a) :: acc) hct
          · simp at hcb
          · simpa [processSubs, hev, ht, firedSubs] using
              ih { s with tasks := setKey ekey ⟨Callback.userCb id, a, false⟩ (cancelTaskAt s.tasks ekey) } ((Callback.userCb id, a) :: acc) hct
        · have := ih s acc hct
          simpa [processSubs, hev, ht, firedSubs] using this

/-- Reduction of a successful receive: with the engine running, a 20-byte
frame and a good CRC, the dispatch is the response step followed by the
event step. -/
theorem dataReceived_eq (s : RobotState) (data : List Nat) (p : Packet)
    (hrun : s.running = true)
    (hpkt : Packet.from_bytes data = some p)
    (hcrc : p.check_crc = true) :
    Robot.dataReceived s data =
      (let s1 :=
        match lookupKey (p.dev, p.cmd, p.inc) s.responses with
        | none => s
        | some fid =>
          let s' := { s with responses := eraseKey (p.dev, p.cmd, p.inc) s.responses }
          match lookupKey fid s'.futures with
          | some Fut.pending =>
            { s' with futures := setKey fid (Fut.resolved p) s'.futures }
          | _ => s'
      match lookupKey (p.dev, p.cmd) s1.events with
      | none => ⟨s1, [], none⟩
      | some subs => processSubs (p.dev, p.cmd) p subs s1 []) := by
  unfold Robot.dataReceived
  rw [hpkt]
  simp only [hrun, hcrc, Bool.not_true, Bool.false_eq_true, not_false_eq_true,
    not_true_eq_false, if_false, if_true, ite_false, ite_true]

/-- C2: for every valid frame received while the engine is running: if the
frame's triplet keys a pending slot, exactly that table entry is removed
and the slot is resolved with the packet; a frame whose triplet matches no
table key leaves the table and every slot untouched, and the frame is
delivered to the subscribers registered under its (device, command) event
key — each registered filter is evaluated and exactly the matching
subscribers have their handler invocation started, in order (stated for
subscriber lists on which the dispatch loop runs to completion, which
covers every user-registered list). -/
theorem C2_correlation_dispatch (s : RobotState) (data : List Nat) (p : Packet)
    (hrun : s.running = true)
    (hpkt : Packet.from_bytes data = some p)
    (hcrc : p.check_crc = true) :
    (∀ fid, lookupKey (p.dev, p.cmd, p.inc) s.responses = some fid →
      lookupKey fid s.futures = some Fut.pending →
      (Robot.dataReceived s data).state.responses
          = eraseKey (p.dev, p.cmd, p.inc) s.responses ∧
      lookupKey fid (Robot.dataReceived s data).state.futures
          = some (Fut.resolved p)) ∧
    (lookupKey (p.dev, p.cmd, p.inc) s.responses = none →
      (Robot.dataReceived s data).state.responses = s.responses ∧
      (Robot.dataReceived s data).state.futures = s.futures ∧
      (cleanSubs p ((lookupKey (p.dev, p.cmd) s.events).getD []) = true →
        (Robot.dataReceived s data).started
          = firedSubs p ((lookupKey (p.dev, p.cmd) s.events).getD []))) := by
  rw [dataReceived_eq s data p hrun hpkt hcrc]
  constructor
  · intro fid hfid hfut
    simp only [hfid, hfut]
    rcases hev : lookupKey (p.dev, p.cmd) s.events with _ | subs
    · simp [hev, lookupKey_setKey_self]
    · simp only [hev]
      have hp := processSubs_preserves (p.dev, p.cmd) p subs
        { s with responses := eraseKey (p.dev, p.cmd, p.inc) s.responses,
                 futures := setKey fid (Fut.resolved p) s.futures } []
      refine ⟨hp.1, ?_⟩
      rw [hp.2.1]
      exact lookupKey_setKey_self fid (Fut.resolved p) s.futures
  · intro hmiss
    simp only [hmiss]
    rcases hev : lookupKey (p.dev, p.cmd) s.events with _ | subs
    · simp [hev, firedSubs]
    · simp only [hev]
      have hp := processSubs_preserves (p.dev, p.cmd) p subs s []
      refine ⟨hp.1, hp.2.1, fun hclean => ?_⟩
      have hs := processSubs_started (p.dev, p.cmd) p subs s []
        (by simpa [hev] using hclean)
      simpa [hev] using hs.1

/-- Witness for C2.  A reply frame with triplet (12, 0, 7): against a
state holding a pending slot under exactly that key it removes the entry
and resolves the slot; against a state with an empty pending table it
leaves the slot store untouched and starts the unfiltered bump subscriber
registered under event key (12, 0). -/
theorem C2_correlation_dispatch_witness :
    (Robot.dataReceived
        ⟨[((12, 0, 7), 0)], [(0, Fut.pending)], 1,
         [((12, 0), [(FilterFn.bumpFilter none, Callback.userCb 0)])], [], 8, true, true⟩
        (frameOf ([12, 0, 7] ++ List.replicate 16 0))).state.responses = [] ∧
    lookupKey 0 (Robot.dataReceived
        ⟨[((12, 0, 7), 0)], [(0, Fut.pending)], 1,
         [((12, 0), [(FilterFn.bumpFilter none, Callback.userCb 0)])], [], 8, true, true⟩
        (frameOf ([12, 0, 7] ++ List.replicate 16 0))).state.futures
      = some (Fut.resolved ⟨12, 0, 7, List.replicate 16 0,
          some (calcCrcBytes ([12, 0, 7] ++ List.replicate 16 0))⟩) ∧
    (Robot.dataReceived
        ⟨[], [(0, Fut.pending)], 1,
         [((12, 0), [(FilterFn.bumpFilter none, Callback.userCb 0)])], [], 8, true, true⟩
        (frameOf ([12, 0, 7] ++ List.replicate 16 0))).state.futures
      = [(0, Fut.pending)] ∧
    (Robot.dataReceived
        ⟨[], [(0, Fut.pending)], 1,
         [((12, 0), [(FilterFn.bumpFilter none, Callback.userCb 0)])], [], 8, true, true⟩
        (frameOf ([12, 0, 7] ++ List.replicate 16 0))).started
      = [(Callback.userCb 0, PyArg.bumpArg ⟨false, false⟩)] := by
  have hhit := (C2_correlation_dispatch
      ⟨[((12, 0, 7), 0)], [(0, Fut.pending)], 1,
       [((12, 0), [(FilterFn.bumpFilter none, Callback.userCb 0)])], [], 8, true, true⟩
      (frameOf ([12, 0, 7] ++ List.replicate 16 0))
      ⟨12, 0, 7, List.replicate 16 0,
        some (calcCrcBytes ([12, 0, 7] ++ List.replicate 16 0))⟩
      rfl (by decide) (by decide)).1 0 (by decide) (by decide)
  have hmiss := (C2_correlation_dispatch
      ⟨[], [(0, Fut.pending)], 1,
       [((12, 0), [(FilterFn.bumpFilter none, Callback.userCb 0)])], [], 8, true, true⟩
      (frameOf ([12, 0, 7] ++ List.replicate 16 0))
      ⟨12, 0, 7, List.replicate 16 0,
        some (calcCrcBytes ([12, 0, 7] ++ List.replicate 16 0))⟩
      rfl (by decide) (by decide)).2 (by decide)
  refine ⟨hhit.1.trans (by decide), hhit.2, hmiss.2.1, ?_⟩
  exact (hmiss.2.2 (by decide)).trans (by decide)

end RootRobot
